import Mathlib

/-!
Shallow embedding of the mailgun-rs client library (src/lib.rs).

The library builds a form-encoded send-email request from a structured
message, submits it over HTTP, and interprets the provider's response.
We model:
  * `EmailAddress` with its two constructors and its `Display` rendering;
  * `Message` and `Message.params` (the `toParameters` flattening),
    including the serde_json serialization of the template-variable maps;
  * `Mailgun` (the client) and the pure parts of `Mailgun.send`: the
    request it builds (URL, basic auth, form parameters) and the
    classification of an HTTP response into success or error.
HashMaps of the Rust code are modelled as association lists observed
through `List.lookup`; `HashMap::insert` becomes `mapInsert`, which
replaces any previous binding of the key.
-/

/-- Models `EmailAddress` from src/lib.rs: optional display name plus address. -/
structure EmailAddress where
  name : Option String
  address : String
deriving DecidableEq

/-- Models `EmailAddress::address`: construct with no display name. -/
def EmailAddress.mkAddress (address : String) : EmailAddress :=
  { name := none, address := address }

/-- Models `EmailAddress::name_address`: construct with a display name. -/
def EmailAddress.name_address (name address : String) : EmailAddress :=
  { name := some name, address := address }

/-- Models `impl fmt::Display for EmailAddress`: with a name, `"{} <{}>"`;
otherwise the bare address. -/
def EmailAddress.render (e : EmailAddress) : String :=
  match e.name with
  | some n => n ++ " <" ++ e.address ++ ">"
  | none => e.address

/-- Models `SendResponse` from src/lib.rs. -/
structure SendResponse where
  message : String
  id : String
deriving DecidableEq

/-- Models `Mailgun` from src/lib.rs. -/
structure Mailgun where
  domain : String
  api_key : String
  zone : Option String

/-- Models `Mailgun::new`. -/
def Mailgun.new (domain api_key : String) : Mailgun :=
  { domain := domain, api_key := api_key, zone := none }

/-- Models `Mailgun::set_zone`. -/
def Mailgun.set_zone (m : Mailgun) (zone : String) : Mailgun :=
  { m with zone := some zone }

/-- The constant `MAILGUN_API` from src/lib.rs. -/
def MAILGUN_API : String := "https://api.mailgun.net/v3"

/-- The constant `MESSAGES_ENDPOINT` from src/lib.rs. -/
def MESSAGES_ENDPOINT : String := "messages"

/- ## serde_json serialization (the writer) -/

/-- Lowercase hex digit, as in serde_json's `HEX_DIGITS` table. -/
def hexDigitLower (n : Nat) : Char :=
  if n < 10 then Char.ofNat (48 + n) else Char.ofNat (87 + n)

/-- Models serde_json's string escaping (ser.rs `CharEscape`): quote and
backslash escaped, the five short control escapes, `\u00XX` for the other
control characters, everything else emitted raw. -/
def escapeChar (c : Char) : List Char :=
  if c = '"' then ['\\', '"']
  else if c = '\\' then ['\\', '\\']
  else if c = '\x08' then ['\\', 'b']
  else if c = '\t' then ['\\', 't']
  else if c = '\n' then ['\\', 'n']
  else if c = '\x0c' then ['\\', 'f']
  else if c = '\r' then ['\\', 'r']
  else if c.toNat < 32 then
    ['\\', 'u', '0', '0', hexDigitLower (c.toNat / 16), hexDigitLower (c.toNat % 16)]
  else [c]

/-- Escape a whole character list. -/
def escList (l : List Char) : List Char :=
  (l.map escapeChar).flatten

/-- serde_json's rendering of a JSON string: escaped content in quotes. -/
def writeJsonString (s : String) : String :=
  "\"" ++ String.mk (escList s.data) ++ "\""

/-- The fragment of serde_json's `Value` our data uses: strings and objects
(whose keys are themselves serialized values, as in serde's map serializer). -/
inductive Json where
  | str (s : String)
  | obj (fields : List (Json × Json))

mutual

/-- Models serde_json serialization to a compact string.  Serializing an
object fails when a key is not a string (serde_json's
"key must be a string" error); this is the error that
`serde_json::to_string(...).unwrap()` in `Message::params` would panic on. -/
def Json.write : Json → Option String
  | .str s => some (writeJsonString s)
  | .obj fields =>
    match Json.writeFields fields with
    | some inner => some ("\x7b" ++ inner ++ "\x7d")
    | none => none

/-- Comma-separated serialization of an object's fields. -/
def Json.writeFields : List (Json × Json) → Option String
  | [] => some ""
  | [kv] => Json.writeEntry kv
  | kv :: rest =>
    match Json.writeEntry kv, Json.writeFields rest with
    | some p, some r => some (p ++ "," ++ r)
    | _, _ => none

/-- One `key:value` entry; fails when the key is not a string. -/
def Json.writeEntry : Json × Json → Option String
  | (.str k, v) =>
    match Json.write v with
    | some vs => some (writeJsonString k ++ ":" ++ vs)
    | none => none
  | (.obj _, _) => none

end

/-- The JSON value serde_json builds for a `HashMap<String, String>`. -/
def jsonOfStringMap (m : List (String × String)) : Json :=
  .obj (m.map fun kv => (.str kv.1, .str kv.2))

/-- The JSON value serde_json builds for a
`HashMap<String, HashMap<String, String>>`. -/
def jsonOfRecipientVars (m : List (String × List (String × String))) : Json :=
  .obj (m.map fun kv => (.str kv.1, jsonOfStringMap kv.2))

/-- Closed form of the serialized entries of a string map (no `Option`). -/
def writePairsS : List (String × String) → String
  | [] => ""
  | [kv] => writeJsonString kv.1 ++ ":" ++ writeJsonString kv.2
  | kv :: rest =>
    writeJsonString kv.1 ++ ":" ++ writeJsonString kv.2 ++ "," ++ writePairsS rest

/-- Closed form of serde_json's output on a `HashMap<String, String>`. -/
def writeStringMapS (m : List (String × String)) : String :=
  "\x7b" ++ writePairsS m ++ "\x7d"

/-- Closed form of the serialized entries of the recipient-variables map. -/
def writeRecipientPairsS : List (String × List (String × String)) → String
  | [] => ""
  | [kv] => writeJsonString kv.1 ++ ":" ++ writeStringMapS kv.2
  | kv :: rest =>
    writeJsonString kv.1 ++ ":" ++ writeStringMapS kv.2 ++ "," ++ writeRecipientPairsS rest

/-- Closed form of serde_json's output on the recipient-variables map. -/
def writeRecipientVarsS (m : List (String × List (String × String))) : String :=
  "\x7b" ++ writeRecipientPairsS m ++ "\x7d"

/- ## Message and its parameter flattening -/

/-- Models `Message` from src/lib.rs.  The two `HashMap` fields are
association lists (one iteration order of the map). -/
structure Message where
  «to» : List EmailAddress
  cc : List EmailAddress
  bcc : List EmailAddress
  subject : String
  text : String
  html : String
  template : String
  template_vars : List (String × String)
  recipient_vars : List (String × List (String × String))

/-- Models `HashMap::insert` as observed through `List.lookup`: the new
binding replaces any previous binding of the key. -/
def mapInsert (k v : String) (m : List (String × String)) : List (String × String) :=
  (k, v) :: m.filter (fun p => p.1 != k)

/-- Models `Message::add_recipients`: when the list is non-empty, join the
rendered addresses with commas and insert under `field`; otherwise no-op. -/
def Message.add_recipients (field : String) (addresses : List EmailAddress)
    (params : List (String × String)) : List (String × String) :=
  if addresses.isEmpty then params
  else mapInsert field (String.intercalate "," (addresses.map EmailAddress.render)) params

/-- Models `Message::params` (the spec's `toParameters()`).  The `.getD ""`
models `.unwrap()`: the default is the panic branch, shown unreachable by
`Message.paramsChecked_eq`. -/
def Message.params (m : Message) : List (String × String) :=
  let params : List (String × String) := []
  let params := Message.add_recipients "to" m.«to» params
  let params := Message.add_recipients "cc" m.cc params
  let params := Message.add_recipients "bcc" m.bcc params
  let params := mapInsert "subject" m.subject params
  let params := mapInsert "text" m.text params
  let params := mapInsert "html" m.html params
  if !m.template.isEmpty then
    let params := mapInsert "template" m.template params
    let params :=
      if !m.template_vars.isEmpty then
        mapInsert "h:X-Mailgun-Variables"
          ((Json.write (jsonOfStringMap m.template_vars)).getD "") params
      else params
    let params :=
      if !m.recipient_vars.isEmpty then
        mapInsert "h:X-Mailgun-Recipient-Variables"
          ((Json.write (jsonOfRecipientVars m.recipient_vars)).getD "") params
      else params
    params
  else params

/-- `Message::params` with the serde_json failures propagated instead of
unwrapped: `none` is the panic of `.unwrap()`. -/
def Message.paramsChecked (m : Message) : Option (List (String × String)) :=
  let params : List (String × String) := []
  let params := Message.add_recipients "to" m.«to» params
  let params := Message.add_recipients "cc" m.cc params
  let params := Message.add_recipients "bcc" m.bcc params
  let params := mapInsert "subject" m.subject params
  let params := mapInsert "text" m.text params
  let params := mapInsert "html" m.html params
  if !m.template.isEmpty then
    let params := mapInsert "template" m.template params
    match Json.write (jsonOfStringMap m.template_vars),
          Json.write (jsonOfRecipientVars m.recipient_vars) with
    | some tv, some rv =>
      let params :=
        if !m.template_vars.isEmpty then
          mapInsert "h:X-Mailgun-Variables" tv params
        else params
      let params :=
        if !m.recipient_vars.isEmpty then
          mapInsert "h:X-Mailgun-Recipient-Variables" rv params
        else params
      some params
    | _, _ => none
  else some params

/- ## The send request and response handling -/

/-- The HTTP request `Mailgun::send` builds: target URL, basic-auth
credentials, and the form-encoded parameter map. -/
structure HttpRequest where
  url : String
  authUser : String
  authPass : String
  form : List (String × String)

/-- An HTTP response as `Mailgun::send` observes it: status code and body. -/
structure HttpResponse where
  status : Nat
  body : String

/-- The pure request-building half of `Mailgun::send`: flatten the message,
insert `from`, resolve the root URL from the zone, compose the target URL. -/
def Mailgun.sendRequest (mg : Mailgun) (sender : EmailAddress) (msg : Message) :
    HttpRequest :=
  let params := msg.params
  let params := mapInsert "from" sender.render params
  let root := mg.zone.getD MAILGUN_API
  let url := root ++ "/" ++ mg.domain ++ "/" ++ MESSAGES_ENDPOINT
  { url := url, authUser := "api", authPass := mg.api_key, form := params }

/-- Models `StatusCode::is_success`: the 2xx range. -/
def statusIsSuccess (n : Nat) : Bool :=
  200 ≤ n && n < 300

/- ### JSON parsing (for `res.json::<SendResponse>()` and round-trips) -/

/-- Value of a hex digit, or `none`. -/
def hexVal? (c : Char) : Option Nat :=
  if 48 ≤ c.toNat ∧ c.toNat ≤ 57 then some (c.toNat - 48)
  else if 97 ≤ c.toNat ∧ c.toNat ≤ 102 then some (c.toNat - 87)
  else if 65 ≤ c.toNat ∧ c.toNat ≤ 70 then some (c.toNat - 55)
  else none

/-- The single-character JSON escapes. -/
def unescapeChar (c : Char) : Option Char :=
  if c = '"' then some '"'
  else if c = '\\' then some '\\'
  else if c = '/' then some '/'
  else if c = 'b' then some '\x08'
  else if c = 't' then some '\t'
  else if c = 'n' then some '\n'
  else if c = 'f' then some '\x0c'
  else if c = 'r' then some '\r'
  else none

/-- Read the contents of a JSON string up to its closing quote, undoing the
escapes; returns the decoded characters and the rest of the input.  (Like a
standard JSON reader; surrogate pairs are out of scope for the data at hand,
a lone `\uXXXX` must be a valid scalar value.) -/
def takeStr : List Char → Option (List Char × List Char)
  | [] => none
  | c :: rest =>
    if c = '"' then some ([], rest)
    else if c = '\\' then
      match rest with
      | [] => none
      | e :: rest2 =>
        if e = 'u' then
          match rest2 with
          | h1 :: h2 :: h3 :: h4 :: rest3 =>
            match hexVal? h1, hexVal? h2, hexVal? h3, hexVal? h4 with
            | some d1, some d2, some d3, some d4 =>
              let n := d1 * 4096 + d2 * 256 + d3 * 16 + d4
              if n < 55296 ∨ (57343 < n ∧ n < 1114112) then
                match takeStr rest3 with
                | some p => some (Char.ofNat n :: p.1, p.2)
                | none => none
              else none
            | _, _, _, _ => none
          | _ => none
        else
          match unescapeChar e with
          | some d =>
            match takeStr rest2 with
            | some p => some (d :: p.1, p.2)
            | none => none
          | none => none
    else
      match takeStr rest with
      | some p => some (c :: p.1, p.2)
      | none => none

/-- Parse one JSON string literal at the head of the input. -/
def parseJsonStr : List Char → Option (String × List Char)
  | [] => none
  | c :: rest =>
    if c = '"' then
      match takeStr rest with
      | some p => some (String.mk p.1, p.2)
      | none => none
    else none

/-- Parse the `"k":"v"` entries of a non-empty flat string object, up to and
including the closing brace.  `fuel` bounds the number of entries. -/
def parsePairs : Nat → List Char → Option (List (String × String) × List Char)
  | 0, _ => none
  | fuel + 1, l =>
    match parseJsonStr l with
    | none => none
    | some (k, l1) =>
      match l1 with
      | ':' :: l2 =>
        match parseJsonStr l2 with
        | none => none
        | some (v, l3) =>
          match l3 with
          | ',' :: l4 =>
            match parsePairs fuel l4 with
            | some p => some ((k, v) :: p.1, p.2)
            | none => none
          | '\x7d' :: l4 => some ([(k, v)], l4)
          | _ => none
      | _ => none

/-- Parse a complete flat JSON object with string values (the shape of the
serialized variable maps and of a `SendResponse` body), consuming the whole
input. -/
def parseStringMap (s : String) : Option (List (String × String)) :=
  match s.data with
  | '\x7b' :: rest =>
    match rest with
    | '\x7d' :: rest2 => if rest2 = [] then some [] else none
    | _ =>
      match parsePairs s.data.length rest with
      | some (m, []) => some m
      | _ => none
  | _ => none

/-- Models `res.json::<SendResponse>()` for flat string-valued JSON bodies:
deserialize the object and take the `message` and `id` fields (serde ignores
unknown fields). -/
def parseSendResponse (body : String) : Option SendResponse :=
  match parseStringMap body with
  | some m =>
    match m.lookup "message", m.lookup "id" with
    | some ms, some i => some { message := ms, id := i }
    | _, _ => none
  | none => none

/- ### Rust `{:?}` formatting of the error body -/

/-- Models `char::escape_debug` for the characters that occur in response
bodies: quote, backslash, `\t`, `\r`, `\n`, `\0` get two-character escapes,
other control characters become `\u{...}` (lowercase hex, no padding),
printable characters pass through. -/
def debugEscapeChar (c : Char) : List Char :=
  if c = '"' then ['\\', '"']
  else if c = '\\' then ['\\', '\\']
  else if c = '\t' then ['\\', 't']
  else if c = '\r' then ['\\', 'r']
  else if c = '\n' then ['\\', 'n']
  else if c = '\x00' then ['\\', '0']
  else if c.toNat < 32 ∨ c.toNat = 127 then
    ['\\', 'u', '\x7b'] ++ (Nat.toDigits 16 c.toNat) ++ ['\x7d']
  else [c]

/-- Models `format!("{:?}", s)` for a `String`: the body wrapped in double
quotes with its characters debug-escaped.  This is what
`anyhow::anyhow!("{:?}", parsed)` puts into the error. -/
def rustDebugFormat (s : String) : String :=
  "\"" ++ String.mk ((s.data.map debugEscapeChar).flatten) ++ "\""

/-- The pure response-classification half of `Mailgun::send`: on a 2xx
status, deserialize the body as a `SendResponse` (a deserialization failure
is an error); otherwise an error built by `anyhow!("{:?}", body_text)`. -/
def Mailgun.handleResponse (res : HttpResponse) : Except String SendResponse :=
  if statusIsSuccess res.status then
    match parseSendResponse res.body with
    | some r => Except.ok r
    | none => Except.error "error decoding response body"
  else
    Except.error (rustDebugFormat res.body)

/-- `Mailgun::send` with the one HTTP exchange abstracted as a function from
the built request to a response: build the request, submit it, classify the
response. -/
def Mailgun.send (mg : Mailgun) (sender : EmailAddress) (msg : Message)
    (transport : HttpRequest → HttpResponse) : Except String SendResponse :=
  Mailgun.handleResponse (transport (mg.sendRequest sender msg))

/- ## Concrete fixtures (used by witnesses and counterexamples) -/

/-- The sender used in src/main.rs. -/
def senderNoReply : EmailAddress :=
  EmailAddress.name_address "no-reply" "no-reply@hackerth.com"

/-- A templated message with two `to` recipients, no `cc`, one `bcc`,
and the template variables of src/main.rs `send_template`. -/
def msgTemplate : Message :=
  { «to» := [EmailAddress.mkAddress "x@y.com", EmailAddress.mkAddress "z@y.com"]
    cc := []
    bcc := [EmailAddress.name_address "Dongri" "d@y.com"]
    subject := "mailgun-rs"
    text := ""
    html := ""
    template := "template-1"
    template_vars := [("firstname", "Dongri")]
    recipient_vars := [] }

/-- A message with an empty template but populated variable maps. -/
def msgNoTemplate : Message :=
  { msgTemplate with
    template := ""
    recipient_vars := [("x@y.com", [("id", "1")])] }

/-- A stubbed transport returning HTTP 400 with body `Invalid domain`. -/
def stub400 : HttpRequest → HttpResponse :=
  fun _ => { status := 400, body := "Invalid domain" }

/-- A stubbed transport returning HTTP 200 with a `SendResponse` JSON body. -/
def stub200 : HttpRequest → HttpResponse :=
  fun _ => { status := 200, body := "\x7b\"message\":\"Queued\",\"id\":\"abc123\"\x7d" }

/-! ## Lookup lemmas for the parameter map -/

theorem lookup_filter_ne (k q : String) (m : List (String × String)) (h : q ≠ k) :
    List.lookup q (m.filter fun p => p.1 != k) = List.lookup q m := by
  induction m with
  | nil => rfl
  | cons p rest ih =>
    obtain ⟨a, b⟩ := p
    by_cases hp : a = k
    · subst hp
      have hq : (q == a) = false := by simpa using h
      simp [List.filter_cons, List.lookup, hq, ih]
    · have ha : (a != k) = true := by simpa using hp
      simp only [List.filter_cons, ha, List.lookup, ih]

theorem lookup_mapInsert_self (k v : String) (m : List (String × String)) :
    List.lookup k (mapInsert k v m) = some v := by
  simp [mapInsert, List.lookup]

theorem lookup_mapInsert_ne (k q v : String) (m : List (String × String)) (h : q ≠ k) :
    List.lookup q (mapInsert k v m) = List.lookup q m := by
  have hq : (q == k) = false := by simpa using h
  simp [mapInsert, List.lookup, hq, lookup_filter_ne k q m h]

theorem isSome_lookup_mapInsert (k q v : String) (m : List (String × String)) :
    (List.lookup q (mapInsert k v m)).isSome ↔ q = k ∨ (List.lookup q m).isSome := by
  by_cases h : q = k
  · subst h; simp [lookup_mapInsert_self]
  · simp [lookup_mapInsert_ne k q v m h, h]

theorem lookup_add_recipients_ne (field q : String) (as : List EmailAddress)
    (m : List (String × String)) (h : q ≠ field) :
    List.lookup q (Message.add_recipients field as m) = List.lookup q m := by
  unfold Message.add_recipients
  split
  · rfl
  · exact lookup_mapInsert_ne field q _ m h

theorem lookup_add_recipients_self (field : String) (as : List EmailAddress)
    (m : List (String × String)) :
    List.lookup field (Message.add_recipients field as m) =
      if as.isEmpty then List.lookup field m
      else some (String.intercalate "," (as.map EmailAddress.render)) := by
  unfold Message.add_recipients
  split
  · simp_all
  · simp_all [lookup_mapInsert_self]

/-- With an empty template, `Message.params` is just the base insertions. -/
theorem params_template_empty (m : Message) (h : m.template.isEmpty = true) :
    m.params =
      mapInsert "html" m.html (mapInsert "text" m.text (mapInsert "subject" m.subject
        (Message.add_recipients "bcc" m.bcc (Message.add_recipients "cc" m.cc
          (Message.add_recipients "to" m.«to» []))))) := by
  simp [Message.params, h]

/-- Keys other than `template` and the two variable headers look up the same
in `Message.params` as in the base insertions. -/
theorem lookup_params_not_special (m : Message) (q : String)
    (h1 : q ≠ "template") (h2 : q ≠ "h:X-Mailgun-Variables")
    (h3 : q ≠ "h:X-Mailgun-Recipient-Variables") :
    List.lookup q m.params =
      List.lookup q (mapInsert "html" m.html (mapInsert "text" m.text (mapInsert "subject"
        m.subject (Message.add_recipients "bcc" m.bcc (Message.add_recipients "cc" m.cc
          (Message.add_recipients "to" m.«to» [])))))) := by
  unfold Message.params
  split
  · split <;> split <;>
      simp only [lookup_mapInsert_ne _ _ _ _ h1, lookup_mapInsert_ne _ _ _ _ h2,
        lookup_mapInsert_ne _ _ _ _ h3]
  · rfl

/-- The `to` key of `Message.params`. -/
theorem lookup_params_to (m : Message) :
    List.lookup "to" m.params =
      if m.«to».isEmpty then none
      else some (String.intercalate "," (m.«to».map EmailAddress.render)) := by
  rw [lookup_params_not_special m "to" (by decide) (by decide) (by decide)]
  rw [lookup_mapInsert_ne _ _ _ _ (by decide), lookup_mapInsert_ne _ _ _ _ (by decide),
    lookup_mapInsert_ne _ _ _ _ (by decide), lookup_add_recipients_ne _ _ _ _ (by decide),
    lookup_add_recipients_ne _ _ _ _ (by decide), lookup_add_recipients_self]
  rfl

/-- The `cc` key of `Message.params`. -/
theorem lookup_params_cc (m : Message) :
    List.lookup "cc" m.params =
      if m.cc.isEmpty then none
      else some (String.intercalate "," (m.cc.map EmailAddress.render)) := by
  rw [lookup_params_not_special m "cc" (by decide) (by decide) (by decide)]
  rw [lookup_mapInsert_ne _ _ _ _ (by decide), lookup_mapInsert_ne _ _ _ _ (by decide),
    lookup_mapInsert_ne _ _ _ _ (by decide), lookup_add_recipients_ne _ _ _ _ (by decide),
    lookup_add_recipients_self]
  split
  · rw [lookup_add_recipients_ne _ _ _ _ (by decide)]
    rfl
  · rfl

/-- The `bcc` key of `Message.params`. -/
theorem lookup_params_bcc (m : Message) :
    List.lookup "bcc" m.params =
      if m.bcc.isEmpty then none
      else some (String.intercalate "," (m.bcc.map EmailAddress.render)) := by
  rw [lookup_params_not_special m "bcc" (by decide) (by decide) (by decide)]
  rw [lookup_mapInsert_ne _ _ _ _ (by decide), lookup_mapInsert_ne _ _ _ _ (by decide),
    lookup_mapInsert_ne _ _ _ _ (by decide), lookup_add_recipients_self]
  split
  · rw [lookup_add_recipients_ne _ _ _ _ (by decide),
      lookup_add_recipients_ne _ _ _ _ (by decide)]
    rfl
  · rfl

/-! ## Claim theorems: rendering, URL, from-injection, recipient roles -/

/-- C6: an `EmailAddress` built via `name_address(n, a)` renders as
`n ++ " <" ++ a ++ ">"`, and one built via `address(a)` renders as `a`;
`render` is a pure function of the stored fields with no failure modes. -/
theorem C6_render_forms (n a : String) :
    (EmailAddress.name_address n a).render = n ++ " <" ++ a ++ ">" ∧
    (EmailAddress.mkAddress a).render = a :=
  ⟨rfl, rfl⟩

/-- C10: with an empty display name, `name_address("", a)` still renders in
the bracketed form `" <" ++ a ++ ">"`; the empty name is not collapsed to
the bare-address form. -/
theorem C10_empty_name_still_bracketed (a : String) :
    (EmailAddress.name_address "" a).render = " <" ++ a ++ ">" ∧
    (EmailAddress.name_address "" a).render ≠ (EmailAddress.mkAddress a).render := by
  have h : (EmailAddress.name_address "" a).render = " <" ++ a ++ ">" := rfl
  refine ⟨h, ?_⟩
  rw [h]
  intro heq
  have hra : (EmailAddress.mkAddress a).render = a := rfl
  rw [hra] at heq
  have hlen := congrArg List.length (congrArg String.data heq)
  rw [String.data_append, String.data_append, List.length_append, List.length_append] at hlen
  have h2 : (" <" : String).data.length = 2 := rfl
  have h3 : (">" : String).data.length = 1 := rfl
  rw [h2, h3] at hlen
  omega

/-- C5: the URL `send` targets is `base ++ "/" ++ domain ++ "/" ++ "messages"`
where `base` is the zone when set and `https://api.mailgun.net/v3` otherwise;
setting a zone changes only the base component. -/
theorem C5_send_url_composition (mg : Mailgun) (z : String) (sender : EmailAddress)
    (msg : Message) :
    (mg.zone = none →
      (mg.sendRequest sender msg).url =
        "https://api.mailgun.net/v3" ++ "/" ++ mg.domain ++ "/" ++ "messages") ∧
    (∀ zv, mg.zone = some zv →
      (mg.sendRequest sender msg).url = zv ++ "/" ++ mg.domain ++ "/" ++ "messages") ∧
    ((mg.set_zone z).sendRequest sender msg).url =
      z ++ "/" ++ mg.domain ++ "/" ++ "messages" := by
  refine ⟨?_, ?_, ?_⟩
  · intro h
    simp [Mailgun.sendRequest, h, MAILGUN_API, MESSAGES_ENDPOINT]
  · intro zv h
    simp [Mailgun.sendRequest, h, MESSAGES_ENDPOINT]
  · simp [Mailgun.sendRequest, Mailgun.set_zone, MESSAGES_ENDPOINT]

theorem C5_send_url_composition_witness :
    ((Mailgun.new "mailgun.hackerth.com" "key-xxxxxx").sendRequest senderNoReply
      msgTemplate).url = "https://api.mailgun.net/v3/mailgun.hackerth.com/messages" := by
  have h := (C5_send_url_composition (Mailgun.new "mailgun.hackerth.com" "key-xxxxxx")
    "https://api.eu.mailgun.net/v3" senderNoReply msgTemplate).1 rfl
  exact h.trans (by decide)

/-- C4: the form `send` submits is `message.params` with exactly one change:
`from` is bound to `sender.render`; every other key looks up unchanged, and
a key is present iff it is `from` or was present in `message.params`. -/
theorem C4_send_params_from_insertion (mg : Mailgun) (sender : EmailAddress)
    (msg : Message) :
    List.lookup "from" (mg.sendRequest sender msg).form = some sender.render ∧
    (∀ k, k ≠ "from" →
      List.lookup k (mg.sendRequest sender msg).form = List.lookup k msg.params) ∧
    (∀ k, (List.lookup k (mg.sendRequest sender msg).form).isSome ↔
      k = "from" ∨ (List.lookup k msg.params).isSome) := by
  refine ⟨?_, ?_, ?_⟩
  · exact lookup_mapInsert_self _ _ _
  · intro k hk
    exact lookup_mapInsert_ne _ _ _ _ hk
  · intro k
    exact isSome_lookup_mapInsert _ _ _ _

theorem C4_send_params_from_insertion_witness :
    List.lookup "from" ((Mailgun.new "d" "k").sendRequest senderNoReply msgTemplate).form =
      some "no-reply <no-reply@hackerth.com>" ∧
    List.lookup "subject" ((Mailgun.new "d" "k").sendRequest senderNoReply msgTemplate).form =
      List.lookup "subject" msgTemplate.params := by
  constructor
  · exact ((C4_send_params_from_insertion (Mailgun.new "d" "k") senderNoReply
      msgTemplate).1).trans (by decide)
  · exact (C4_send_params_from_insertion (Mailgun.new "d" "k") senderNoReply
      msgTemplate).2.1 "subject" (by decide)

/-- C7: for each recipient role, an empty address list yields no key in
`Message.params`, and a non-empty list yields the comma-joined rendered
addresses under that role's key. -/
theorem C7_recipients_joining (m : Message) :
    (m.«to» = [] → List.lookup "to" m.params = none) ∧
    (m.«to» ≠ [] → List.lookup "to" m.params =
      some (String.intercalate "," (m.«to».map EmailAddress.render))) ∧
    (m.cc = [] → List.lookup "cc" m.params = none) ∧
    (m.cc ≠ [] → List.lookup "cc" m.params =
      some (String.intercalate "," (m.cc.map EmailAddress.render))) ∧
    (m.bcc = [] → List.lookup "bcc" m.params = none) ∧
    (m.bcc ≠ [] → List.lookup "bcc" m.params =
      some (String.intercalate "," (m.bcc.map EmailAddress.render))) := by
  refine ⟨?_, ?_, ?_, ?_, ?_, ?_⟩ <;> intro h
  · rw [lookup_params_to]
    simp [h]
  · rw [lookup_params_to]
    simp [List.isEmpty_iff, h]
  · rw [lookup_params_cc]
    simp [h]
  · rw [lookup_params_cc]
    simp [List.isEmpty_iff, h]
  · rw [lookup_params_bcc]
    simp [h]
  · rw [lookup_params_bcc]
    simp [List.isEmpty_iff, h]

theorem C7_recipients_joining_witness :
    List.lookup "to" msgTemplate.params = some "x@y.com,z@y.com" ∧
    List.lookup "cc" msgTemplate.params = none := by
  constructor
  · exact ((C7_recipients_joining msgTemplate).2.1 (by decide)).trans (by decide)
  · exact (C7_recipients_joining msgTemplate).2.2.1 rfl

/-! ## serde_json writer: closed forms and success -/

theorem writeFields_stringMap (m : List (String × String)) :
    Json.writeFields (m.map fun kv => (.str kv.1, .str kv.2)) = some (writePairsS m) := by
  induction m with
  | nil => rfl
  | cons kv rest ih =>
    cases rest with
    | nil => rfl
    | cons y t =>
      simp only [List.map_cons] at ih ⊢
      rw [Json.writeFields, ih]
      · rfl
      · simp

theorem json_write_stringMap (m : List (String × String)) :
    Json.write (jsonOfStringMap m) = some (writeStringMapS m) := by
  rw [jsonOfStringMap, Json.write, writeFields_stringMap]
  rfl

theorem writeFields_recipientVars (m : List (String × List (String × String))) :
    Json.writeFields (m.map fun kv => (.str kv.1, jsonOfStringMap kv.2)) =
      some (writeRecipientPairsS m) := by
  induction m with
  | nil => rfl
  | cons kv rest ih =>
    cases rest with
    | nil =>
      simp only [List.map_cons, List.map_nil]
      rw [Json.writeFields, Json.writeEntry, json_write_stringMap]
      rfl
    | cons y t =>
      simp only [List.map_cons] at ih ⊢
      rw [Json.writeFields, ih, Json.writeEntry, json_write_stringMap]
      · rfl
      · simp

theorem json_write_recipientVars (m : List (String × List (String × String))) :
    Json.write (jsonOfRecipientVars m) = some (writeRecipientVarsS m) := by
  rw [jsonOfRecipientVars, Json.write, writeFields_recipientVars]
  rfl

/-- C9: for every `Message` (string-keyed maps of strings / string maps),
the serde_json serialization inside `Message.params` succeeds: the checked
variant that propagates serialization failure instead of unwrapping always
returns `some` of the computed parameters, so the unwrap/panic branch is
unreachable and the flattening is total. -/
theorem C9_params_serialization_total (m : Message) :
    m.paramsChecked = some m.params := by
  simp only [Message.params, Message.paramsChecked, json_write_stringMap,
    json_write_recipientVars, Option.getD_some]
  split <;> rfl

/-- C2: when `template` is the empty string, `Message.params` contains no
`template` key and neither variable-header key, regardless of the contents
of `template_vars` and `recipient_vars`. -/
theorem C2_empty_template_omits_template_keys (m : Message) (h : m.template = "") :
    List.lookup "template" m.params = none ∧
    List.lookup "h:X-Mailgun-Variables" m.params = none ∧
    List.lookup "h:X-Mailgun-Recipient-Variables" m.params = none := by
  have he : m.template.isEmpty = true := by
    rw [h]
    rfl
  rw [params_template_empty m he]
  refine ⟨?_, ?_, ?_⟩ <;>
    · rw [lookup_mapInsert_ne _ _ _ _ (by decide), lookup_mapInsert_ne _ _ _ _ (by decide),
        lookup_mapInsert_ne _ _ _ _ (by decide), lookup_add_recipients_ne _ _ _ _ (by decide),
        lookup_add_recipients_ne _ _ _ _ (by decide),
        lookup_add_recipients_ne _ _ _ _ (by decide)]
      rfl

theorem C2_empty_template_omits_template_keys_witness :
    List.lookup "template" msgNoTemplate.params = none ∧
    List.lookup "h:X-Mailgun-Variables" msgNoTemplate.params = none ∧
    List.lookup "h:X-Mailgun-Recipient-Variables" msgNoTemplate.params = none :=
  C2_empty_template_omits_template_keys msgNoTemplate rfl

/-! ## JSON parser: round-trip with the writer -/

theorem data_writeJsonString (s : String) :
    (writeJsonString s).data = '"' :: (escList s.data ++ ['"']) := by
  have h1 : ("\"" : String).data = ['"'] := rfl
  have h2 : (String.mk (escList s.data)).data = escList s.data := rfl
  rw [writeJsonString, String.data_append, String.data_append, h1, h2]
  rfl

theorem hexVal_hexDigitLower : ∀ n : Nat, n < 16 → hexVal? (hexDigitLower n) = some n := by
  decide

theorem takeStr_escList (s l : List Char) :
    takeStr (escList s ++ '"' :: l) = some (s, l) := by
  induction s with
  | nil =>
    have h : escList [] = [] := rfl
    rw [h, List.nil_append, takeStr.eq_def]
    simp
  | cons c cs ih =>
    have hesc : escList (c :: cs) = escapeChar c ++ escList cs := by
      simp [escList]
    rw [hesc, List.append_assoc]
    by_cases h1 : c = '"'
    · subst h1
      have he : escapeChar '"' = ['\\', '"'] := rfl
      rw [he, takeStr.eq_def]
      simp [unescapeChar, ih]
    by_cases h2 : c = '\\'
    · subst h2
      have he : escapeChar '\\' = ['\\', '\\'] := rfl
      rw [he, takeStr.eq_def]
      simp [unescapeChar, ih]
    by_cases h3 : c = '\x08'
    · subst h3
      have he : escapeChar '\x08' = ['\\', 'b'] := rfl
      rw [he, takeStr.eq_def]
      simp [unescapeChar, ih]
    by_cases h4 : c = '\t'
    · subst h4
      have he : escapeChar '\t' = ['\\', 't'] := rfl
      rw [he, takeStr.eq_def]
      simp [unescapeChar, ih]
    by_cases h5 : c = '\n'
    · subst h5
      have he : escapeChar '\n' = ['\\', 'n'] := rfl
      rw [he, takeStr.eq_def]
      simp [unescapeChar, ih]
    by_cases h6 : c = '\x0c'
    · subst h6
      have he : escapeChar '\x0c' = ['\\', 'f'] := rfl
      rw [he, takeStr.eq_def]
      simp [unescapeChar, ih]
    by_cases h7 : c = '\r'
    · subst h7
      have he : escapeChar '\r' = ['\\', 'r'] := rfl
      rw [he, takeStr.eq_def]
      simp [unescapeChar, ih]
    by_cases h8 : c.toNat < 32
    · have he : escapeChar c = ['\\', 'u', '0', '0',
          hexDigitLower (c.toNat / 16), hexDigitLower (c.toNat % 16)] := by
        simp [escapeChar, h1, h2, h3, h4, h5, h6, h7, h8]
      rw [he, takeStr.eq_def]
      have hz : hexVal? '0' = some 0 := rfl
      have hd1 : hexVal? (hexDigitLower (c.toNat / 16)) = some (c.toNat / 16) :=
        hexVal_hexDigitLower _ (by omega)
      have hd2 : hexVal? (hexDigitLower (c.toNat % 16)) = some (c.toNat % 16) :=
        hexVal_hexDigitLower _ (by omega)
      have hn : 0 * 4096 + 0 * 256 + c.toNat / 16 * 16 + c.toNat % 16 = c.toNat := by
        omega
      have hn2 : c.toNat / 16 * 16 + c.toNat % 16 = c.toNat := by
        omega
      have hlt : c.toNat < 55296 := by omega
      simp [hz, hd1, hd2, hn, hn2, hlt, ih, Char.ofNat_toNat]
    · have he : escapeChar c = [c] := by
        simp [escapeChar, h1, h2, h3, h4, h5, h6, h7, h8]
      rw [he, List.singleton_append, takeStr.eq_def]
      simp [h1, h2, ih]

theorem parseJsonStr_write (k : String) (l : List Char) :
    parseJsonStr ((writeJsonString k).data ++ l) = some (k, l) := by
  rw [data_writeJsonString, List.cons_append, List.append_assoc, List.singleton_append,
    parseJsonStr]
  simp [takeStr_escList]

theorem data_writePairsS_one (kv : String × String) :
    (writePairsS [kv]).data =
      (writeJsonString kv.1).data ++ ':' :: (writeJsonString kv.2).data := by
  have hc : (":" : String).data = [':'] := rfl
  rw [writePairsS, String.data_append, String.data_append, hc]
  simp

theorem data_writePairsS_cons (kv y : String × String) (u : List (String × String)) :
    (writePairsS (kv :: y :: u)).data =
      (writeJsonString kv.1).data ++ ':' ::
        ((writeJsonString kv.2).data ++ ',' :: (writePairsS (y :: u)).data) := by
  have hc : (":" : String).data = [':'] := rfl
  have hm : ("," : String).data = [','] := rfl
  rw [writePairsS]
  · rw [String.data_append, String.data_append, String.data_append, String.data_append,
      hc, hm]
    simp
  · simp

theorem length_writePairsS :
    ∀ m : List (String × String), m ≠ [] → m.length ≤ (writePairsS m).data.length := by
  intro m
  induction m with
  | nil =>
    intro h
    exact absurd rfl h
  | cons kv t ih =>
    intro _
    cases t with
    | nil =>
      rw [data_writePairsS_one]
      have h1 := data_writeJsonString kv.1
      simp [h1]
    | cons y u =>
      have hy : (y :: u).length ≤ (writePairsS (y :: u)).data.length := ih (by simp)
      rw [data_writePairsS_cons]
      simp only [List.length_cons, List.length_append] at hy ⊢
      omega

theorem parsePairs_write (m : List (String × String)) :
    ∀ fuel l, m ≠ [] → m.length ≤ fuel →
      parsePairs fuel ((writePairsS m).data ++ '\x7d' :: l) = some (m, l) := by
  induction m with
  | nil =>
    intro fuel l h _
    exact absurd rfl h
  | cons kv t ih =>
    intro fuel l _ hlen
    cases fuel with
    | zero => simp at hlen
    | succ f =>
      cases t with
      | nil =>
        have hdata : (writePairsS [kv]).data ++ '\x7d' :: l =
            (writeJsonString kv.1).data ++ ':' ::
              ((writeJsonString kv.2).data ++ '\x7d' :: l) := by
          rw [data_writePairsS_one]
          simp
        rw [hdata, parsePairs, parseJsonStr_write]
        simp [parseJsonStr_write]
      | cons y u =>
        have hdata : (writePairsS (kv :: y :: u)).data ++ '\x7d' :: l =
            (writeJsonString kv.1).data ++ ':' ::
              ((writeJsonString kv.2).data ++ ',' ::
                ((writePairsS (y :: u)).data ++ '\x7d' :: l)) := by
          rw [data_writePairsS_cons]
          simp
        have hrec := ih f l (by simp) (by simp at hlen ⊢; omega)
        rw [hdata, parsePairs, parseJsonStr_write]
        simp [parseJsonStr_write, hrec]

theorem parse_write_stringMap (m : List (String × String)) :
    parseStringMap (writeStringMapS m) = some m := by
  cases m with
  | nil => rfl
  | cons kv t =>
    have hhead : ∃ X, (writePairsS (kv :: t)).data = '"' :: X := by
      cases t with
      | nil =>
        refine ⟨(escList kv.1.data ++ ['"']) ++ ':' :: (writeJsonString kv.2).data, ?_⟩
        rw [data_writePairsS_one, data_writeJsonString]
        simp
      | cons y u =>
        refine ⟨(escList kv.1.data ++ ['"']) ++ ':' ::
          ((writeJsonString kv.2).data ++ ',' :: (writePairsS (y :: u)).data), ?_⟩
        rw [data_writePairsS_cons, data_writeJsonString]
        simp
    obtain ⟨X, hX⟩ := hhead
    have hdata : (writeStringMapS (kv :: t)).data =
        '\x7b' :: ((writePairsS (kv :: t)).data ++ ['\x7d']) := by
      have h1 : ("\x7b" : String).data = ['\x7b'] := rfl
      have h2 : ("\x7d" : String).data = ['\x7d'] := rfl
      rw [writeStringMapS, String.data_append, String.data_append, h1, h2]
      simp
    have harg : '\x7b' :: ((writePairsS (kv :: t)).data ++ ['\x7d']) =
        '\x7b' :: '"' :: (X ++ ['\x7d']) := by
      rw [hX]
      simp
    have hback : ('"' :: (X ++ ['\x7d']) : List Char) =
        (writePairsS (kv :: t)).data ++ '\x7d' :: [] := by
      rw [hX]
      simp
    have hfuel : (kv :: t).length ≤ ('\x7b' :: '"' :: (X ++ ['\x7d'])).length := by
      have h1 := length_writePairsS (kv :: t) (by simp)
      rw [hX] at h1
      simp only [List.length_cons, List.length_append] at h1 ⊢
      omega
    have hpp := parsePairs_write (kv :: t) (('\x7b' :: '"' :: (X ++ ['\x7d'])).length) []
      (by simp) hfuel
    rw [← hback] at hpp
    unfold parseStringMap
    rw [hdata, harg]
    simp only [List.length_cons, List.length_append, List.length_singleton,
      List.length_nil, Nat.zero_add] at hpp
    simp [hpp]

/-! ## Claim theorems: template variables, response handling -/

/-- C3: for every `Message` with non-empty `template` and non-empty
`template_vars`, the value stored under `h:X-Mailgun-Variables` is the
serde_json serialization of `template_vars`, and parsing that value back as
JSON yields exactly the original map. -/
theorem C3_template_vars_roundtrip (m : Message) (h1 : m.template ≠ "")
    (h2 : m.template_vars ≠ []) :
    List.lookup "h:X-Mailgun-Variables" m.params =
      some (writeStringMapS m.template_vars) ∧
    parseStringMap (writeStringMapS m.template_vars) = some m.template_vars := by
  refine ⟨?_, parse_write_stringMap _⟩
  have ht0 : m.template.isEmpty = false := by
    cases hb : m.template.isEmpty
    · rfl
    · exact absurd ((String.isEmpty_iff m.template).mp hb) h1
  have htv0 : m.template_vars.isEmpty = false := by
    cases hb : m.template_vars.isEmpty
    · rfl
    · exact absurd (List.isEmpty_iff.mp hb) h2
  cases hrv : m.recipient_vars.isEmpty with
  | false =>
    simp only [Message.params, ht0, htv0, hrv]
    simp only [Bool.not_false, if_true]
    rw [lookup_mapInsert_ne _ _ _ _ (by decide), lookup_mapInsert_self,
      json_write_stringMap]
    rfl
  | true =>
    simp only [Message.params, ht0, htv0, hrv]
    simp only [Bool.not_false, Bool.not_true, Bool.false_eq_true, if_true, if_false]
    rw [lookup_mapInsert_self, json_write_stringMap]
    rfl

theorem C3_template_vars_roundtrip_witness :
    List.lookup "h:X-Mailgun-Variables" msgTemplate.params =
      some "\x7b\"firstname\":\"Dongri\"\x7d" ∧
    parseStringMap "\x7b\"firstname\":\"Dongri\"\x7d" = some [("firstname", "Dongri")] := by
  have h := C3_template_vars_roundtrip msgTemplate (by decide) (by decide)
  have e : writeStringMapS msgTemplate.template_vars =
      "\x7b\"firstname\":\"Dongri\"\x7d" := by
    decide
  constructor
  · rw [← e]
    exact h.1
  · have h2 := h.2
    rw [e] at h2
    exact h2.trans (by decide)

/-- C8: for every send whose HTTP response has a 2xx status, `send`
deserializes the body as JSON of shape `(message, id)` and returns success
carrying exactly those two values; if the 2xx body does not deserialize to
that shape, `send` returns an error rather than any success value. -/
theorem C8_success_response_parsing (mg : Mailgun) (sender : EmailAddress)
    (msg : Message) (transport : HttpRequest → HttpResponse)
    (h : statusIsSuccess (transport (mg.sendRequest sender msg)).status = true) :
    (∀ r, parseSendResponse (transport (mg.sendRequest sender msg)).body = some r →
      mg.send sender msg transport = Except.ok r) ∧
    (parseSendResponse (transport (mg.sendRequest sender msg)).body = none →
      ∃ e, mg.send sender msg transport = Except.error e) := by
  constructor
  · intro r hr
    simp [Mailgun.send, Mailgun.handleResponse, h, hr]
  · intro hr
    exact ⟨"error decoding response body",
      by simp [Mailgun.send, Mailgun.handleResponse, h, hr]⟩

theorem C8_success_response_parsing_witness :
    (Mailgun.new "mailgun.hackerth.com" "key-xxxxxx").send senderNoReply msgTemplate
      stub200 = Except.ok { message := "Queued", id := "abc123" } :=
  (C8_success_response_parsing (Mailgun.new "mailgun.hackerth.com" "key-xxxxxx")
    senderNoReply msgTemplate stub200 (by decide)).1
    { message := "Queued", id := "abc123" } (by decide)

/-! ## C1: the non-2xx error is the Debug rendering of the body, not verbatim -/

theorem debugEscapeChar_ne_nil (c : Char) : debugEscapeChar c ≠ [] := by
  unfold debugEscapeChar
  split_ifs <;> simp

theorem length_flatten_debugEscape (l : List Char) :
    l.length ≤ ((l.map debugEscapeChar).flatten).length := by
  induction l with
  | nil => simp
  | cons c t ih =>
    simp only [List.map_cons, List.flatten_cons, List.length_append, List.length_cons]
    have hc : 0 < (debugEscapeChar c).length :=
      List.length_pos.mpr (debugEscapeChar_ne_nil c)
    omega

theorem rustDebugFormat_ne_self (s : String) : rustDebugFormat s ≠ s := by
  intro h
  have hdata : (rustDebugFormat s).data =
      '"' :: (((s.data.map debugEscapeChar).flatten) ++ ['"']) := by
    have h1 : ("\"" : String).data = ['"'] := rfl
    rw [rustDebugFormat, String.data_append, String.data_append, h1]
    simp
  have hd := congrArg List.length (congrArg String.data h)
  rw [hdata] at hd
  have hlen := length_flatten_debugEscape s.data
  simp only [List.length_cons, List.length_append, List.length_singleton] at hd
  omega

/-- C1 (counterexample): with a stubbed transport returning HTTP 400 and the
body `Invalid domain`, `send` returns an error whose text is the Debug-quoted
form `"Invalid domain"` (with literal quotes), not the body verbatim as the
claim states. -/
theorem C1_error_body_not_verbatim :
    (Mailgun.new "d" "k").send senderNoReply msgTemplate stub400 =
      Except.error "\"Invalid domain\"" ∧
    (Mailgun.new "d" "k").send senderNoReply msgTemplate stub400 ≠
      Except.error "Invalid domain" := by
  have hs : rustDebugFormat "Invalid domain" = "\"Invalid domain\"" := by decide
  have h1 : (Mailgun.new "d" "k").send senderNoReply msgTemplate stub400 =
      Except.error (rustDebugFormat "Invalid domain") := by
    simp [Mailgun.send, Mailgun.handleResponse, stub400, statusIsSuccess]
  refine ⟨h1.trans (by rw [hs]), ?_⟩
  intro h
  have h3 := Except.error.inj (h1.symm.trans h)
  rw [hs] at h3
  exact absurd h3 (by decide)

/-- C1 (amended): for every send whose HTTP response has a non-2xx status,
`send` returns an error whose message is `format!("{:?}", body)` — the raw
body text wrapped in double quotes with special characters backslash-escaped
— which always differs from the body itself; the body is not JSON-parsed. -/
theorem C1_error_is_debug_format_of_body (mg : Mailgun) (sender : EmailAddress)
    (msg : Message) (transport : HttpRequest → HttpResponse)
    (h : statusIsSuccess (transport (mg.sendRequest sender msg)).status = false) :
    mg.send sender msg transport =
      Except.error (rustDebugFormat (transport (mg.sendRequest sender msg)).body) ∧
    rustDebugFormat (transport (mg.sendRequest sender msg)).body ≠
      (transport (mg.sendRequest sender msg)).body := by
  constructor
  · simp [Mailgun.send, Mailgun.handleResponse, h]
  · exact rustDebugFormat_ne_self _

theorem C1_error_is_debug_format_of_body_witness :
    (Mailgun.new "d" "k").send senderNoReply msgTemplate stub400 =
      Except.error (rustDebugFormat "Invalid domain") :=
  (C1_error_is_debug_format_of_body (Mailgun.new "d" "k") senderNoReply msgTemplate
    stub400 (by decide)).1
